import Mathlib

/-!
Verification development for the Neo Eden tutorial mob AI
(src/evennia/contrib/tutorials/tutorial_world/mob.py).

The `Mob` class is a finite state machine (dormant / patrolling /
hunting / attacking) driven by the host engine ticker.  We embed the
class shallowly: persistent attributes (`self.db.*`), non-persistent
runtime attributes (`self.ndb.*`), the location reference and the set of
TICKER_HANDLER subscriptions for this object are gathered into one
record `MobState`, and every method becomes a pure function on that
record.  External side effects (messages sent, ticker add/remove calls,
movement commands) are recorded in a ghost event trace `log`.  External
queries (random draws, room occupants, exits, the post-attack health of
a combat target, name resolution) are supplied as explicit inputs,
mirroring the host-engine calls at the same program points.  Methods
that would dereference `self.location` while it is `None` (a Python
AttributeError) return `none`.
-/

-- Batteries marks the rational arithmetic operations irreducible; make
-- them semireducible again so that concrete scenario states evaluate
-- under `decide`.
unseal Rat.add Rat.sub Rat.mul Rat.inv

/-- Rooms are identified abstractly. -/
abbrev Loc := Nat

/-- Player characters (potential combat targets) are identified abstractly. -/
abbrev TargetId := Nat

/-- The four callback names passed to `_set_ticker` as `hook_key`. -/
inductive Hook
  | set_alive
  | do_patrol
  | do_hunt
  | do_attack
deriving DecidableEq

/-- The message fields of the mob used in notifications (db attribute names). -/
inductive MsgKind
  | weapon_ineffective_msg
  | hit_msg
  | death_msg
  | defeat_msg
  | defeat_msg_room
  | irregular (i : Nat)
deriving DecidableEq

/-- Ghost trace of externally visible effects performed by the mob code. -/
inductive Ev
  | tickerRemove (interval : Nat) (hook : Hook)
  | tickerAdd (interval : Nat) (hook : Hook)
  | msgAttacker (m : MsgKind)
  | msgLocation (m : MsgKind)
  | msgLocationExcluding (t : TargetId) (m : MsgKind)
  | msgTarget (t : TargetId) (m : MsgKind)
  | executeCmd (verb : Nat) (t : TargetId)
  | moveTarget (t : TargetId) (dest : Loc)
  | moveSelf (dest : Loc)
  | logErr
deriving DecidableEq

/-- One traversable exit as seen by `do_hunt`: its destination room and
whether `_find_target(exit.destination)` finds a valid target there. -/
structure HuntExit where
  destination : Loc
  hasTarget : Bool
deriving DecidableEq

/-- External inputs consumed during one tick: the random draws and the
world queries made by `do_patrol` / `do_hunt` / `do_attack`. -/
structure TickEnv where
  ambient : Bool
  pickMsg : Nat
  target : Option TargetId
  exits : List HuntExit
  pickExit : Nat
  pickVerb : Nat
  targetHealthAfter : ℚ
  resolved : Option Loc
deriving DecidableEq

/-- The full observable state of one `Mob` object.  Fields keep the
Python attribute names (`db.*` persistent, `ndb.*` runtime flags).
Cosmetic description strings are not modelled.  `tickers` is the set of
TICKER_HANDLER subscriptions whose callback is bound to this object
(idstring `neoeden_mob`), and `log` is the ghost effect trace. -/
@[ext]
structure MobState where
  -- persistent attributes (self.db)
  patrolling : Bool
  aggressive : Bool
  hunting : Bool
  immortal : Bool
  is_dead : Bool
  damage_resistance : ℚ
  patrolling_pace : Nat
  aggressive_pace : Nat
  hunting_pace : Nat
  death_pace : Nat
  last_ticker_interval : Option Nat
  last_hook_key : Option Hook
  full_health : ℚ
  health : Option ℚ
  irregular_msgs : List Nat
  -- object model
  location : Option Loc
  home : Loc
  -- runtime attributes (self.ndb)
  is_patrolling : Bool
  is_attacking : Bool
  is_hunting : Bool
  is_immortal : Bool
  -- external scheduler entries bound to this object
  tickers : List (Nat × Hook)
  -- ghost trace of external effects
  log : List Ev
deriving DecidableEq

/-- Append one effect to the ghost trace. -/
def addEv (s : MobState) (e : Ev) : MobState :=
  { s with log := s.log ++ [e] }

/-- The state with the ghost trace erased, for comparing agent state proper. -/
def stripLog (s : MobState) : MobState :=
  { s with log := [] }

/-- `random.choice` over a list, the draw abstracted as an index. -/
def pyChoice (l : List α) (k : Nat) (d : α) : α :=
  l.getD (k % l.length) d

/-- `TICKER_HANDLER.remove(interval, callback, idstring)`: the store is a
dict keyed by that triple, so removal deletes the matching entry. -/
def tickerRemoveL (l : List (Nat × Hook)) (i : Nat) (h : Hook) : List (Nat × Hook) :=
  l.filter (fun t => decide (t ≠ (i, h)))

/-- `TICKER_HANDLER.add(interval, callback, idstring)`: adding an already
present key replaces the subscription, so no duplicates arise. -/
def tickerAddL (l : List (Nat × Hook)) (i : Nat) (h : Hook) : List (Nat × Hook) :=
  if (i, h) ∈ l then l else l ++ [(i, h)]

/-- The ticker set determined by the `last_ticker_interval` /
`last_hook_key` bookkeeping, taking Python truthiness into account
(an interval of `None` or `0` is falsy and installs nothing). -/
def tickersOf : Option Nat → Option Hook → List (Nat × Hook)
  | some i, some h => if i ≠ 0 then [(i, h)] else []
  | _, _ => []

/-- Well-formed scheduling state: the live tickers agree with the
bookkeeping fields.  This holds after every `_set_ticker` call. -/
def WFtickers (s : MobState) : Prop :=
  s.tickers = tickersOf s.last_ticker_interval s.last_hook_key

instance (s : MobState) : Decidable (WFtickers s) := by
  unfold WFtickers; infer_instance

/-- First half of `_set_ticker`: `if last_interval and last_hook_key:
TICKER_HANDLER.remove(...)` (both values must be truthy). -/
def removeLast (s : MobState) : MobState :=
  match s.last_ticker_interval, s.last_hook_key with
  | some li, some lh =>
    if li ≠ 0 then
      addEv { s with tickers := tickerRemoveL s.tickers li lh } (Ev.tickerRemove li lh)
    else s
  | _, _ => s

/-- Second half of `_set_ticker`: `if not stop and interval and hook_key:
TICKER_HANDLER.add(...)`. -/
def addNew (s : MobState) (stop : Bool) (interval : Option Nat) (hook_key : Option Hook) :
    MobState :=
  match stop, interval, hook_key with
  | false, some i, some h =>
    if i ≠ 0 then
      addEv { s with tickers := tickerAddL s.tickers i h } (Ev.tickerAdd i h)
    else s
  | _, _, _ => s

/-- `Mob._set_ticker(interval, hook_key, stop)`: remove the previously
recorded ticker, record the new pair, then install the new ticker. -/
def set_ticker (s : MobState) (interval : Option Nat) (hook_key : Option Hook) (stop : Bool) :
    MobState :=
  addNew { removeLast s with
             last_ticker_interval := interval, last_hook_key := hook_key }
    stop interval hook_key

/-- `Mob.start_idle`: `self._set_ticker(None, None, stop=True)`. -/
def start_idle (s : MobState) : MobState :=
  set_ticker s none none true

/-- `Mob.start_patrolling`. -/
def start_patrolling (s : MobState) : MobState :=
  if !s.patrolling then start_idle s
  else
    let s := set_ticker s (some s.patrolling_pace) (some Hook.do_patrol) false
    { s with is_patrolling := true, is_hunting := false, is_attacking := false,
             health := some s.full_health }

/-- `Mob.start_hunting` (`self.db.hunting` is never initialised by
`at_object_creation`, so it is `None` and falsy unless a builder sets it). -/
def start_hunting (s : MobState) : MobState :=
  if !s.hunting then start_patrolling s
  else
    let s := set_ticker s (some s.hunting_pace) (some Hook.do_hunt) false
    { s with is_patrolling := false, is_hunting := true, is_attacking := false }

/-- `Mob.start_attacking`. -/
def start_attacking (s : MobState) : MobState :=
  if !s.aggressive then start_hunting s
  else
    let s := set_ticker s (some s.aggressive_pace) (some Hook.do_attack) false
    { s with is_patrolling := false, is_hunting := false, is_attacking := true }

/-- `Mob.set_alive`: restore health, clear the dead flag, restore the
runtime flags from configuration, return home if locationless, and start
patrolling when patrol-capable.  (The cosmetic `desc` update is not
modelled.) -/
def set_alive (s : MobState) : MobState :=
  let s := { s with health := some s.full_health, is_dead := false,
                    is_immortal := s.immortal, is_patrolling := s.patrolling }
  let s := if s.location = none then addEv { s with location := some s.home } (Ev.moveSelf s.home)
           else s
  if s.patrolling then start_patrolling s else s

/-- `Mob.set_dead`: mark dead, drop out of the world, clear runtime
flags, become immortal, and schedule the reboot after `death_pace`. -/
def set_dead (s : MobState) : MobState :=
  let s := { s with is_dead := true, location := none, is_patrolling := false,
                    is_attacking := false, is_hunting := false, is_immortal := true }
  set_ticker s (some s.death_pace) (some Hook.set_alive) false

/-- The irregular-message prelude shared by all three behaviour ticks:
`if random.random() < 0.02 and self.db.irregular_msgs:
self.location.msg_contents(random.choice(self.db.irregular_msgs))`. -/
def ambientStep (s : MobState) (w : TickEnv) : MobState :=
  if w.ambient && !s.irregular_msgs.isEmpty then
    addEv s (Ev.msgLocation (MsgKind.irregular (pyChoice s.irregular_msgs w.pickMsg 0)))
  else s

/-- `Mob.do_patrol`.  Dereferences `self.location` throughout, so a
`None` location faults (`none`).  `w.target` is the result of
`_find_target(self.location)`; `w.exits` are the traversable exits. -/
def do_patrol (s : MobState) (w : TickEnv) : Option MobState :=
  match s.location with
  | none => none
  | some _ =>
    let s := ambientStep s w
    if s.aggressive && w.target.isSome then some (start_attacking s)
    else if w.exits.isEmpty then
      some (addEv { s with location := some s.home } (Ev.moveSelf s.home))
    else
      let e := pyChoice w.exits w.pickExit ⟨s.home, false⟩
      some (addEv { s with location := some e.destination } (Ev.moveSelf e.destination))

/-- `Mob.do_hunt`: move through the first traversable exit whose
destination holds a valid target, else fall back to patrolling, or walk
home when there are no exits. -/
def do_hunt (s : MobState) (w : TickEnv) : Option MobState :=
  match s.location with
  | none => none
  | some _ =>
    let s := ambientStep s w
    if s.aggressive && w.target.isSome then some (start_attacking s)
    else if w.exits.isEmpty then
      some (addEv { s with location := some s.home } (Ev.moveSelf s.home))
    else
      match w.exits.find? (fun e => e.hasTarget) with
      | some e => some (addEv { s with location := some e.destination } (Ev.moveSelf e.destination))
      | none => some (start_patrolling s)

/-- `Mob.do_attack`: re-acquire the target, issue one combat command,
then resolve a defeat (`target.db.health <= 0` after the attack):
notify the target, broadcast to the room excluding the target, and move
the target to the configured room, logging an error when
`search_object(self.db.send_defeated_to)` resolves nothing. -/
def do_attack (s : MobState) (w : TickEnv) : Option MobState :=
  match s.location with
  | none => none
  | some _ =>
    let s := ambientStep s w
    match w.target with
    | none => some (start_hunting s)
    | some t =>
      let s := addEv s (Ev.executeCmd (w.pickVerb % 5) t)
      if w.targetHealthAfter ≤ 0 then
        let s := addEv s (Ev.msgTarget t MsgKind.defeat_msg)
        let s := addEv s (Ev.msgLocationExcluding t MsgKind.defeat_msg_room)
        match w.resolved with
        | some dest => some (addEv s (Ev.moveTarget t dest))
        | none => some (addEv s Ev.logErr)
      else some s

/-- `Mob.at_hit(weapon, attacker, damage)`.  A `None` health answers
with the ineffective message only.  Mortal mobs divide non-magic damage
by `damage_resistance` (a Python `ZeroDivisionError` when the resistance
is zero, and an AttributeError on a `None` location in the magic branch,
both modelled as `none`).  A resulting health below or equal to zero
notifies the attacker and applies `set_dead`; otherwise an aggressive,
not yet attacking mob starts attacking. -/
def at_hit (s : MobState) (magic : Bool) (damage : ℚ) : Option MobState :=
  match s.health with
  | none => some (addEv s (Ev.msgAttacker MsgKind.weapon_ineffective_msg))
  | some h =>
    let dm : Option (ℚ × MobState) :=
      if !s.is_immortal then
        if !magic then
          if s.damage_resistance = 0 then none
          else some (h - damage / s.damage_resistance,
                     addEv s (Ev.msgAttacker MsgKind.weapon_ineffective_msg))
        else
          match s.location with
          | none => none
          | some _ => some (h - damage, addEv s (Ev.msgLocation MsgKind.hit_msg))
      else some (h, s)
    match dm with
    | none => none
    | some (h2, s1) =>
      let s1 := { s1 with health := some h2 }
      if h2 ≤ 0 then some (set_dead (addEv s1 (Ev.msgAttacker MsgKind.death_msg)))
      else if s1.aggressive && !s1.is_attacking then some (start_attacking s1)
      else some s1

/-- `Mob.at_new_arrival`. -/
def at_new_arrival (s : MobState) : MobState :=
  if s.aggressive && !s.is_attacking then start_attacking s else s

/-- `Mob.at_init`: rebuild the runtime (`ndb`) flags from the persistent
attributes after a reload. -/
def at_init (s : MobState) : MobState :=
  { s with is_patrolling := s.patrolling && !s.is_dead,
           is_attacking := false,
           is_hunting := false,
           is_immortal := s.immortal || s.is_dead }

/-- `Mob.at_object_creation`: the persistent defaults.  `db.hunting` is
never assigned, hence falsy; no ticker is installed yet. -/
def at_object_creation (home : Loc) (location : Option Loc) : MobState :=
  { patrolling := true, aggressive := true, hunting := false, immortal := false,
    is_dead := true, damage_resistance := 100,
    patrolling_pace := 6, aggressive_pace := 2, hunting_pace := 1, death_pace := 90,
    last_ticker_interval := none, last_hook_key := none,
    full_health := 25, health := some 25, irregular_msgs := [0, 1, 2],
    location := location, home := home,
    is_patrolling := false, is_attacking := false, is_hunting := false, is_immortal := false,
    tickers := [], log := [] }

/-- Recognises a room broadcast that excludes an occupant (the only such
call in the source is the defeat broadcast of `do_attack`). -/
def isExcludingBroadcast : Ev → Bool
  | Ev.msgLocationExcluding _ _ => true
  | _ => false

/-- States reachable by one mob during a single server run.  The base
state is a freshly created object (with `at_init` having rebuilt the
runtime flags).  Admin toggles (`mobon` / `moboff`) may call `set_alive`
and `set_dead` at any time; the respawn ticker also fires `set_alive`.
A behaviour tick fires only while its subscription is live.  A hit or an
arrival reaches the mob only while the mob is somewhere in the world
(its `location` is set), since both are delivered by co-located objects. -/
inductive Reach (home : Loc) : MobState → Prop
  | creation : Reach home (at_init (at_object_creation home none))
  | admin_alive {s} : Reach home s → Reach home (set_alive s)
  | admin_dead {s} : Reach home s → Reach home (set_dead s)
  | tick_patrol {s s' : MobState} {w : TickEnv} : Reach home s →
      (s.patrolling_pace, Hook.do_patrol) ∈ s.tickers →
      do_patrol s w = some s' → Reach home s'
  | tick_hunt {s s' : MobState} {w : TickEnv} : Reach home s →
      (s.hunting_pace, Hook.do_hunt) ∈ s.tickers →
      do_hunt s w = some s' → Reach home s'
  | tick_attack {s s' : MobState} {w : TickEnv} : Reach home s →
      (s.aggressive_pace, Hook.do_attack) ∈ s.tickers →
      do_attack s w = some s' → Reach home s'
  | hit {s s' : MobState} {magic : Bool} {d : ℚ} : Reach home s →
      s.location.isSome = true →
      at_hit s magic d = some s' → Reach home s'
  | arrival {s} : Reach home s → s.location.isSome = true →
      Reach home (at_new_arrival s)

/-- The configuration written by `at_object_creation`; no code path
mutates these fields afterwards. -/
def ConfigInv (s : MobState) : Prop :=
  s.patrolling = true ∧ s.aggressive = true ∧ s.hunting = false ∧ s.immortal = false ∧
  s.patrolling_pace = 6 ∧ s.aggressive_pace = 2 ∧ s.hunting_pace = 1 ∧ s.death_pace = 90

/-- Shape of a dormant state: out of the world, no behaviour flags, the
forced immortality flag on, and either no ticker at all (before the
first activation) or exactly the respawn ticker. -/
def DeadInv (s : MobState) : Prop :=
  s.location = none ∧ s.is_patrolling = false ∧ s.is_hunting = false ∧
  s.is_attacking = false ∧ s.is_immortal = true ∧
  ((s.tickers = [] ∧ s.last_ticker_interval = none ∧ s.last_hook_key = none) ∨
   (s.tickers = [(90, Hook.set_alive)] ∧ s.last_ticker_interval = some 90 ∧
    s.last_hook_key = some Hook.set_alive))

/-- Shape of the patrolling state: exactly the patrol ticker. -/
def PatrolInv (s : MobState) : Prop :=
  s.is_patrolling = true ∧ s.is_hunting = false ∧ s.is_attacking = false ∧
  s.tickers = [(6, Hook.do_patrol)] ∧ s.last_ticker_interval = some 6 ∧
  s.last_hook_key = some Hook.do_patrol

/-- Shape of the attacking state: exactly the attack ticker. -/
def AttackInv (s : MobState) : Prop :=
  s.is_patrolling = false ∧ s.is_hunting = false ∧ s.is_attacking = true ∧
  s.tickers = [(2, Hook.do_attack)] ∧ s.last_ticker_interval = some 2 ∧
  s.last_hook_key = some Hook.do_attack

/-- Shape of a live state: located in the world, mortal as configured,
and either patrolling or attacking (the hunt state is unreachable since
`db.hunting` is never set). -/
def AliveInv (s : MobState) : Prop :=
  s.location.isSome = true ∧ s.is_immortal = false ∧ (PatrolInv s ∨ AttackInv s)

/-- The full state invariant of one mob during a single server run. -/
def MobInv (s : MobState) : Prop :=
  ConfigInv s ∧
  ((s.is_dead = true ∧ DeadInv s) ∨ (s.is_dead = false ∧ AliveInv s))

instance (s : MobState) : Decidable (MobInv s) := by
  unfold MobInv ConfigInv DeadInv AliveInv PatrolInv AttackInv; infer_instance

/-- A freshly created mob (after `at_init`). -/
def mob0 : MobState := at_init (at_object_creation 0 none)

/-- The mob booted online by the admin command. -/
def mobAlive : MobState := set_alive mob0

/-- The live mob taken offline again by the admin command, with its full
health retained. -/
def mobOff : MobState := set_dead mobAlive

/-- The live mob killed by a magic weapon doing 30 damage. -/
def mobKilled : MobState := (at_hit mobAlive true 30).getD mob0

/-- The killed mob hit once more (any weapon). -/
def mobKilledTwice : MobState := (at_hit mobKilled false 1).getD mob0

/-- A live mob with an empty ghost trace, used for scenario evaluation. -/
def mobClean : MobState := stripLog mobAlive

/-- Result of the magic-weapon kill scenario on the clean live mob. -/
def c5res : MobState := (at_hit mobClean true 30).getD mob0

/-- A tick environment with no ambient draw, no targets, no exits. -/
def envEmpty : TickEnv :=
  { ambient := false, pickMsg := 0, target := none, exits := [], pickExit := 0,
    pickVerb := 0, targetHealthAfter := 0, resolved := none }


/-- The removal events emitted by `_set_ticker` for a given bookkeeping
state (empty when the recorded interval or hook is falsy). -/
def removeEvs (s : MobState) : List Ev :=
  match s.last_ticker_interval, s.last_hook_key with
  | some li, some lh => if li ≠ 0 then [Ev.tickerRemove li lh] else []
  | _, _ => []

/-- The installation events emitted by `_set_ticker`. -/
def addEvs (stop : Bool) (interval : Option Nat) (hook_key : Option Hook) : List Ev :=
  match stop, interval, hook_key with
  | false, some i, some h => if i ≠ 0 then [Ev.tickerAdd i h] else []
  | _, _, _ => []

/-- Recognises the relocation of a defeated target (`target.move_to`). -/
def isMoveTarget : Ev → Bool
  | Ev.moveTarget _ _ => true
  | _ => false

/-- A mob configured as not patrol-capable (a builder cleared `db.patrolling`). -/
def c3base : MobState := { mob0 with patrolling := false }

/-- The non-patrol mob after deactivation. -/
def c3dead : MobState := set_dead c3base

/-- The non-patrol mob after its respawn fires. -/
def c3res : MobState := set_alive c3dead

/-- Hunt-tick environment: no local target, three exits, the second and
third with targets. -/
def huntEnv : TickEnv :=
  { envEmpty with exits := [⟨5, false⟩, ⟨7, true⟩, ⟨9, true⟩] }

/-- Attack-tick environment: a target defeated by the attack, with the
configured defeat location unresolvable. -/
def c9env : TickEnv :=
  { envEmpty with target := some 3, targetHealthAfter := -1, resolved := none }

theorem set_ticker_eq (s : MobState) (i : Option Nat) (h : Option Hook) (st : Bool)
    (hwf : WFtickers s) :
    set_ticker s i h st =
      { s with tickers := if st = true then [] else tickersOf i h,
               last_ticker_interval := i, last_hook_key := h,
               log := s.log ++ removeEvs s ++ addEvs st i h } := by
  unfold WFtickers at hwf
  cases hli : s.last_ticker_interval <;> cases hlh : s.last_hook_key <;>
    rw [hli, hlh] at hwf <;>
    cases st <;> cases i <;> cases h <;>
    simp_all [set_ticker, addNew, removeLast, addEv, tickerRemoveL, tickerAddL,
              removeEvs, addEvs, tickersOf] <;>
    split_ifs <;>
    simp_all [List.filter]

theorem set_dead_eq (s : MobState) (hwf : WFtickers s) :
    set_dead s =
      { s with is_dead := true, location := none, is_patrolling := false,
               is_attacking := false, is_hunting := false, is_immortal := true,
               tickers := tickersOf (some s.death_pace) (some Hook.set_alive),
               last_ticker_interval := some s.death_pace,
               last_hook_key := some Hook.set_alive,
               log := s.log ++ removeEvs s ++
                      addEvs false (some s.death_pace) (some Hook.set_alive) } := by
  have hwf2 : WFtickers
      { s with is_dead := true, location := none, is_patrolling := false,
               is_attacking := false, is_hunting := false, is_immortal := true } := hwf
  show set_ticker
      { s with is_dead := true, location := none, is_patrolling := false,
               is_attacking := false, is_hunting := false, is_immortal := true }
      (some s.death_pace) (some Hook.set_alive) false = _
  rw [set_ticker_eq _ _ _ _ hwf2]
  rfl

theorem start_patrolling_eq (s : MobState) (hwf : WFtickers s) (hp : s.patrolling = true) :
    start_patrolling s =
      { s with is_patrolling := true, is_hunting := false, is_attacking := false,
               health := some s.full_health,
               tickers := tickersOf (some s.patrolling_pace) (some Hook.do_patrol),
               last_ticker_interval := some s.patrolling_pace,
               last_hook_key := some Hook.do_patrol,
               log := s.log ++ removeEvs s ++
                      addEvs false (some s.patrolling_pace) (some Hook.do_patrol) } := by
  unfold start_patrolling
  rw [hp]
  simp only [Bool.not_true, Bool.false_eq_true, if_false]
  rw [set_ticker_eq _ _ _ _ hwf]
  simp [hp]

theorem start_attacking_eq (s : MobState) (hwf : WFtickers s) (ha : s.aggressive = true) :
    start_attacking s =
      { s with is_patrolling := false, is_hunting := false, is_attacking := true,
               tickers := tickersOf (some s.aggressive_pace) (some Hook.do_attack),
               last_ticker_interval := some s.aggressive_pace,
               last_hook_key := some Hook.do_attack,
               log := s.log ++ removeEvs s ++
                      addEvs false (some s.aggressive_pace) (some Hook.do_attack) } := by
  unfold start_attacking
  rw [ha]
  simp only [Bool.not_true, Bool.false_eq_true, if_false]
  rw [set_ticker_eq _ _ _ _ hwf]
  simp [ha]

theorem start_hunting_eq_patrol (s : MobState) (hh : s.hunting = false) :
    start_hunting s = start_patrolling s := by
  unfold start_hunting
  rw [hh]
  simp only [Bool.not_false, if_true]

theorem set_alive_eq_patrol_some (s : MobState) (loc : Loc) (hwf : WFtickers s)
    (hp : s.patrolling = true) (hl : s.location = some loc) :
    set_alive s =
      { s with health := some s.full_health, is_dead := false, is_immortal := s.immortal,
               is_patrolling := true, is_hunting := false, is_attacking := false,
               tickers := tickersOf (some s.patrolling_pace) (some Hook.do_patrol),
               last_ticker_interval := some s.patrolling_pace,
               last_hook_key := some Hook.do_patrol,
               log := s.log ++ removeEvs s ++
                      addEvs false (some s.patrolling_pace) (some Hook.do_patrol) } := by
  obtain ⟨pat, agg, hun, imm, dead, dr, pp, ap, hup, dp, lti, lhk, fh, hel, irr, loc2, hom,
    ip, ia, ih, im2, tks, lg⟩ := s
  dsimp only at hp hl hwf ⊢
  subst hp hl
  rw [show set_alive
      ⟨true, agg, hun, imm, dead, dr, pp, ap, hup, dp, lti, lhk, fh, hel, irr, some loc, hom,
        ip, ia, ih, im2, tks, lg⟩ =
      start_patrolling
      ⟨true, agg, hun, imm, false, dr, pp, ap, hup, dp, lti, lhk, fh, some fh, irr, some loc,
        hom, true, ia, ih, imm, tks, lg⟩ from rfl]
  have hwf1 : WFtickers
      ⟨true, agg, hun, imm, false, dr, pp, ap, hup, dp, lti, lhk, fh, some fh, irr, some loc,
        hom, true, ia, ih, imm, tks, lg⟩ := hwf
  rw [start_patrolling_eq _ hwf1 rfl]
  rfl

theorem set_alive_eq_patrol_none (s : MobState) (hwf : WFtickers s)
    (hp : s.patrolling = true) (hl : s.location = none) :
    set_alive s =
      { s with health := some s.full_health, is_dead := false, is_immortal := s.immortal,
               is_patrolling := true, is_hunting := false, is_attacking := false,
               location := some s.home,
               tickers := tickersOf (some s.patrolling_pace) (some Hook.do_patrol),
               last_ticker_interval := some s.patrolling_pace,
               last_hook_key := some Hook.do_patrol,
               log := s.log ++ [Ev.moveSelf s.home] ++ removeEvs s ++
                      addEvs false (some s.patrolling_pace) (some Hook.do_patrol) } := by
  obtain ⟨pat, agg, hun, imm, dead, dr, pp, ap, hup, dp, lti, lhk, fh, hel, irr, loc2, hom,
    ip, ia, ih, im2, tks, lg⟩ := s
  dsimp only at hp hl hwf ⊢
  subst hp hl
  rw [show set_alive
      ⟨true, agg, hun, imm, dead, dr, pp, ap, hup, dp, lti, lhk, fh, hel, irr, none, hom,
        ip, ia, ih, im2, tks, lg⟩ =
      start_patrolling
      ⟨true, agg, hun, imm, false, dr, pp, ap, hup, dp, lti, lhk, fh, some fh, irr, some hom,
        hom, true, ia, ih, imm, tks, lg ++ [Ev.moveSelf hom]⟩ from rfl]
  have hwf1 : WFtickers
      ⟨true, agg, hun, imm, false, dr, pp, ap, hup, dp, lti, lhk, fh, some fh, irr, some hom,
        hom, true, ia, ih, imm, tks, lg ++ [Ev.moveSelf hom]⟩ := hwf
  rw [start_patrolling_eq _ hwf1 rfl]
  simp only [List.append_assoc]
  rfl

theorem set_alive_eq_nopatrol_some (s : MobState) (loc : Loc)
    (hp : s.patrolling = false) (hl : s.location = some loc) :
    set_alive s =
      { s with health := some s.full_health, is_dead := false, is_immortal := s.immortal,
               is_patrolling := false } := by
  obtain ⟨pat, agg, hun, imm, dead, dr, pp, ap, hup, dp, lti, lhk, fh, hel, irr, loc2, hom,
    ip, ia, ih, im2, tks, lg⟩ := s
  dsimp only at hp hl ⊢
  subst hp hl
  rfl

theorem set_alive_eq_nopatrol_none (s : MobState)
    (hp : s.patrolling = false) (hl : s.location = none) :
    set_alive s =
      { s with health := some s.full_health, is_dead := false, is_immortal := s.immortal,
               is_patrolling := false, location := some s.home,
               log := s.log ++ [Ev.moveSelf s.home] } := by
  obtain ⟨pat, agg, hun, imm, dead, dr, pp, ap, hup, dp, lti, lhk, fh, hel, irr, loc2, hom,
    ip, ia, ih, im2, tks, lg⟩ := s
  dsimp only at hp hl ⊢
  subst hp hl
  rfl

theorem wf_of_inv (s : MobState) (h : MobInv s) : WFtickers s := by
  obtain ⟨-, hcase⟩ := h
  unfold WFtickers tickersOf
  rcases hcase with ⟨-, ⟨-, -, -, -, -, ⟨htk, hti, thk⟩ | ⟨htk, hti, thk⟩⟩⟩ |
    ⟨-, ⟨-, -, ⟨-, -, -, htk, hti, thk⟩ | ⟨-, -, -, htk, hti, thk⟩⟩⟩ <;>
    rw [htk, hti, thk] <;> simp

theorem inv_addEv (s : MobState) (e : Ev) (h : MobInv s) : MobInv (addEv s e) := h

theorem alive_of_inv_some (s : MobState) (h : MobInv s) (hl : s.location.isSome = true) :
    s.is_dead = false := by
  rcases h with ⟨-, ⟨-, hloc, -⟩ | ⟨hd, -⟩⟩
  · rw [hloc] at hl; cases hl
  · exact hd

theorem inv_relocate (s : MobState) (l : Loc) (h : MobInv s) (ha : s.is_dead = false) :
    MobInv { s with location := some l } := by
  obtain ⟨hcfg, hcase⟩ := h
  rcases hcase with ⟨hd, -⟩ | ⟨-, -, himm, hPA⟩
  · rw [ha] at hd; cases hd
  · exact ⟨hcfg, Or.inr ⟨ha, rfl, himm, hPA⟩⟩

theorem inv_set_dead (s : MobState) (h : MobInv s) : MobInv (set_dead s) := by
  have hwf := wf_of_inv s h
  rw [set_dead_eq s hwf]
  obtain ⟨⟨h1, h2, h3, h4, h5, h6, h7, h8⟩, -⟩ := h
  exact ⟨⟨h1, h2, h3, h4, h5, h6, h7, h8⟩,
    Or.inl ⟨rfl, rfl, rfl, rfl, rfl, rfl,
      Or.inr ⟨by rw [h8]; rfl, by rw [h8], rfl⟩⟩⟩

theorem inv_set_alive (s : MobState) (h : MobInv s) : MobInv (set_alive s) := by
  have hwf := wf_of_inv s h
  obtain ⟨⟨h1, h2, h3, h4, h5, h6, h7, h8⟩, -⟩ := h
  cases hl : s.location with
  | none =>
    rw [set_alive_eq_patrol_none s hwf h1 hl]
    exact ⟨⟨h1, h2, h3, h4, h5, h6, h7, h8⟩,
      Or.inr ⟨rfl, rfl, h4,
        Or.inl ⟨rfl, rfl, rfl, by rw [h5]; rfl, by rw [h5], rfl⟩⟩⟩
  | some loc =>
    rw [set_alive_eq_patrol_some s loc hwf h1 hl]
    refine ⟨⟨h1, h2, h3, h4, h5, h6, h7, h8⟩,
      Or.inr ⟨rfl, ?_, h4, Or.inl ⟨rfl, rfl, rfl, by rw [h5]; rfl, by rw [h5], rfl⟩⟩⟩
    show s.location.isSome = true
    rw [hl]; rfl

theorem inv_start_attacking (s : MobState) (h : MobInv s) (ha : s.is_dead = false) :
    MobInv (start_attacking s) := by
  have hwf := wf_of_inv s h
  obtain ⟨⟨h1, h2, h3, h4, h5, h6, h7, h8⟩, hcase⟩ := h
  rw [start_attacking_eq s hwf h2]
  rcases hcase with ⟨hd, -⟩ | ⟨-, hloc, himm, -⟩
  · rw [ha] at hd; cases hd
  · exact ⟨⟨h1, h2, h3, h4, h5, h6, h7, h8⟩,
      Or.inr ⟨ha, hloc, himm,
        Or.inr ⟨rfl, rfl, rfl, by rw [h6]; rfl, by rw [h6], rfl⟩⟩⟩

theorem inv_at_new_arrival (s : MobState) (h : MobInv s) (hl : s.location.isSome = true) :
    MobInv (at_new_arrival s) := by
  unfold at_new_arrival
  split_ifs with hcond
  · exact inv_start_attacking s h (alive_of_inv_some s h hl)
  · exact h

theorem inv_start_patrolling (s : MobState) (h : MobInv s) (ha : s.is_dead = false) :
    MobInv (start_patrolling s) := by
  have hwf := wf_of_inv s h
  obtain ⟨⟨h1, h2, h3, h4, h5, h6, h7, h8⟩, hcase⟩ := h
  rw [start_patrolling_eq s hwf h1]
  rcases hcase with ⟨hd, -⟩ | ⟨-, hloc, himm, -⟩
  · rw [ha] at hd; cases hd
  · exact ⟨⟨h1, h2, h3, h4, h5, h6, h7, h8⟩,
      Or.inr ⟨ha, hloc, himm,
        Or.inl ⟨rfl, rfl, rfl, by rw [h5]; rfl, by rw [h5], rfl⟩⟩⟩

theorem inv_start_hunting (s : MobState) (h : MobInv s) (ha : s.is_dead = false) :
    MobInv (start_hunting s) := by
  have h3 := h.1.2.2.1
  rw [start_hunting_eq_patrol s h3]
  exact inv_start_patrolling s h ha

theorem patrol_of_ticker (s : MobState) (h : MobInv s)
    (htk : (s.patrolling_pace, Hook.do_patrol) ∈ s.tickers) :
    s.is_dead = false ∧ s.location.isSome = true := by
  obtain ⟨⟨h1, h2, h3, h4, h5, h6, h7, h8⟩, hcase⟩ := h
  rcases hcase with ⟨hd, -, -, -, -, -, ⟨htkE, -, -⟩ | ⟨htkE, -, -⟩⟩ | ⟨hd, hloc, -, -⟩
  · rw [htkE] at htk; cases htk
  · rw [htkE] at htk; simp at htk
  · exact ⟨hd, hloc⟩

theorem attack_of_ticker (s : MobState) (h : MobInv s)
    (htk : (s.aggressive_pace, Hook.do_attack) ∈ s.tickers) :
    s.is_dead = false ∧ s.location.isSome = true := by
  obtain ⟨⟨h1, h2, h3, h4, h5, h6, h7, h8⟩, hcase⟩ := h
  rcases hcase with ⟨hd, -, -, -, -, -, ⟨htkE, -, -⟩ | ⟨htkE, -, -⟩⟩ | ⟨hd, hloc, -, -⟩
  · rw [htkE] at htk; cases htk
  · rw [htkE] at htk; simp at htk
  · exact ⟨hd, hloc⟩

theorem no_hunt_ticker (s : MobState) (h : MobInv s)
    (htk : (s.hunting_pace, Hook.do_hunt) ∈ s.tickers) : False := by
  obtain ⟨⟨h1, h2, h3, h4, h5, h6, h7, h8⟩, hcase⟩ := h
  rcases hcase with ⟨hd, -, -, -, -, -, ⟨htkE, -, -⟩ | ⟨htkE, -, -⟩⟩ |
    ⟨hd, hloc, himm, ⟨-, -, -, htkE, -, -⟩ | ⟨-, -, -, htkE, -, -⟩⟩ <;>
    rw [htkE] at htk <;> simp at htk


theorem ambientStep_eq_or (s : MobState) (w : TickEnv) :
    ambientStep s w = s ∨
    ambientStep s w =
      addEv s (Ev.msgLocation (MsgKind.irregular (pyChoice s.irregular_msgs w.pickMsg 0))) := by
  unfold ambientStep
  split_ifs <;> simp

theorem inv_ambientStep (s : MobState) (w : TickEnv) (h : MobInv s) :
    MobInv (ambientStep s w) := by
  rcases ambientStep_eq_or s w with he | he <;> rw [he]
  · exact h
  · exact inv_addEv s _ h

theorem ambientStep_is_dead (s : MobState) (w : TickEnv) :
    (ambientStep s w).is_dead = s.is_dead := by
  rcases ambientStep_eq_or s w with he | he <;> rw [he] <;> rfl

theorem ambientStep_location (s : MobState) (w : TickEnv) :
    (ambientStep s w).location = s.location := by
  rcases ambientStep_eq_or s w with he | he <;> rw [he] <;> rfl

theorem inv_do_patrol (s s' : MobState) (w : TickEnv) (h : MobInv s)
    (hl : s.location.isSome = true) (heq : do_patrol s w = some s') : MobInv s' := by
  have ha := alive_of_inv_some s h hl
  have ha2 : (ambientStep s w).is_dead = false := by rw [ambientStep_is_dead]; exact ha
  obtain ⟨loc, hloc⟩ := Option.isSome_iff_exists.mp hl
  unfold do_patrol at heq
  rw [hloc] at heq
  dsimp only at heq
  split_ifs at heq <;> rw [Option.some.injEq] at heq <;> subst heq
  · exact inv_start_attacking _ (inv_ambientStep s w h) ha2
  · exact inv_addEv _ _ (inv_relocate _ _ (inv_ambientStep s w h) ha2)
  · exact inv_addEv _ _ (inv_relocate _ _ (inv_ambientStep s w h) ha2)

theorem inv_health_log (s : MobState) (h : MobInv s) (x : Option ℚ) (l : List Ev) :
    MobInv { s with health := x, log := l } := h

theorem inv_do_hunt (s s' : MobState) (w : TickEnv) (h : MobInv s)
    (hl : s.location.isSome = true) (heq : do_hunt s w = some s') : MobInv s' := by
  have ha := alive_of_inv_some s h hl
  have ha2 : (ambientStep s w).is_dead = false := by rw [ambientStep_is_dead]; exact ha
  obtain ⟨loc, hloc⟩ := Option.isSome_iff_exists.mp hl
  unfold do_hunt at heq
  rw [hloc] at heq
  dsimp only at heq
  split_ifs at heq
  · rw [Option.some.injEq] at heq; subst heq
    exact inv_start_attacking _ (inv_ambientStep s w h) ha2
  · rw [Option.some.injEq] at heq; subst heq
    exact inv_addEv _ _ (inv_relocate _ _ (inv_ambientStep s w h) ha2)
  · cases hf : w.exits.find? (fun e => e.hasTarget) with
    | none =>
      rw [hf] at heq; dsimp only at heq
      rw [Option.some.injEq] at heq; subst heq
      exact inv_start_patrolling _ (inv_ambientStep s w h) ha2
    | some e =>
      rw [hf] at heq; dsimp only at heq
      rw [Option.some.injEq] at heq; subst heq
      exact inv_addEv _ _ (inv_relocate _ _ (inv_ambientStep s w h) ha2)

theorem inv_do_attack (s s' : MobState) (w : TickEnv) (h : MobInv s)
    (hl : s.location.isSome = true) (heq : do_attack s w = some s') : MobInv s' := by
  have ha := alive_of_inv_some s h hl
  have ha2 : (ambientStep s w).is_dead = false := by rw [ambientStep_is_dead]; exact ha
  obtain ⟨loc, hloc⟩ := Option.isSome_iff_exists.mp hl
  unfold do_attack at heq
  rw [hloc] at heq
  dsimp only at heq
  cases ht : w.target with
  | none =>
    rw [ht] at heq; dsimp only at heq
    rw [Option.some.injEq] at heq; subst heq
    exact inv_start_hunting _ (inv_ambientStep s w h) ha2
  | some t =>
    rw [ht] at heq; dsimp only at heq
    split_ifs at heq
    · cases hr : w.resolved with
      | none =>
        rw [hr] at heq; dsimp only at heq
        rw [Option.some.injEq] at heq; subst heq
        exact inv_addEv _ _ (inv_addEv _ _ (inv_addEv _ _ (inv_addEv _ _
          (inv_ambientStep s w h))))
      | some dest =>
        rw [hr] at heq; dsimp only at heq
        rw [Option.some.injEq] at heq; subst heq
        exact inv_addEv _ _ (inv_addEv _ _ (inv_addEv _ _ (inv_addEv _ _
          (inv_ambientStep s w h))))
    · rw [Option.some.injEq] at heq; subst heq
      exact inv_addEv _ _ (inv_ambientStep s w h)

theorem inv_at_hit (s s' : MobState) (magic : Bool) (d : ℚ) (h : MobInv s)
    (hl : s.location.isSome = true) (heq : at_hit s magic d = some s') : MobInv s' := by
  have ha := alive_of_inv_some s h hl
  have himm : s.is_immortal = false := by
    rcases h with ⟨-, ⟨hd, -⟩ | ⟨-, -, himm, -⟩⟩
    · rw [ha] at hd; cases hd
    · exact himm
  obtain ⟨loc, hloc⟩ := Option.isSome_iff_exists.mp hl
  unfold at_hit at heq
  cases hh : s.health with
  | none =>
    rw [hh] at heq; dsimp only at heq
    rw [Option.some.injEq] at heq; subst heq
    exact inv_addEv s _ h
  | some q =>
    rw [hh] at heq
    dsimp only at heq
    have himm2 : (!s.is_immortal) = true := by simp [himm]
    rw [if_pos himm2] at heq
    cases magic with
    | false =>
      rw [if_pos (show (!false) = true from rfl)] at heq
      by_cases hdr : s.damage_resistance = 0
      · rw [if_pos hdr] at heq; dsimp only at heq; cases heq
      · rw [if_neg hdr] at heq; dsimp only at heq
        split_ifs at heq <;> rw [Option.some.injEq] at heq <;> subst heq
        · exact inv_set_dead _ (inv_health_log s h _ _)
        · exact inv_start_attacking _ (inv_health_log s h _ _) ha
        · exact inv_health_log s h _ _
    | true =>
      rw [if_neg (show ¬((!true) = true) from by simp)] at heq
      rw [hloc] at heq
      dsimp only at heq
      split_ifs at heq <;> rw [Option.some.injEq] at heq <;> subst heq
      · exact inv_set_dead _ (inv_health_log s h _ _)
      · exact inv_start_attacking _ (inv_health_log s h _ _) ha
      · exact inv_health_log s h _ _

theorem inv_base (home : Loc) : MobInv (at_init (at_object_creation home none)) :=
  ⟨⟨rfl, rfl, rfl, rfl, rfl, rfl, rfl, rfl⟩,
   Or.inl ⟨rfl, rfl, rfl, rfl, rfl, rfl, Or.inl ⟨rfl, rfl, rfl⟩⟩⟩

theorem reach_inv (home : Loc) (s : MobState) (hr : Reach home s) : MobInv s := by
  induction hr with
  | creation => exact inv_base home
  | admin_alive _ ih => exact inv_set_alive _ ih
  | admin_dead _ ih => exact inv_set_dead _ ih
  | tick_patrol _ htk heq ih =>
    exact inv_do_patrol _ _ _ ih (patrol_of_ticker _ ih htk).2 heq
  | tick_hunt _ htk heq ih => exact (no_hunt_ticker _ ih htk).elim
  | tick_attack _ htk heq ih =>
    exact inv_do_attack _ _ _ ih (attack_of_ticker _ ih htk).2 heq
  | hit _ hl heq ih => exact inv_at_hit _ _ _ _ ih hl heq
  | arrival _ hl ih => exact inv_at_new_arrival _ ih hl

theorem ambientStep_patrolling (s : MobState) (w : TickEnv) :
    (ambientStep s w).patrolling = s.patrolling := by
  rcases ambientStep_eq_or s w with he | he <;> rw [he] <;> rfl

theorem ambientStep_patrolling_pace (s : MobState) (w : TickEnv) :
    (ambientStep s w).patrolling_pace = s.patrolling_pace := by
  rcases ambientStep_eq_or s w with he | he <;> rw [he] <;> rfl

theorem ambientStep_home (s : MobState) (w : TickEnv) :
    (ambientStep s w).home = s.home := by
  rcases ambientStep_eq_or s w with he | he <;> rw [he] <;> rfl

theorem ambientStep_wf (s : MobState) (w : TickEnv) (hwf : WFtickers s) :
    WFtickers (ambientStep s w) := by
  rcases ambientStep_eq_or s w with he | he <;> rw [he]
  · exact hwf
  · exact hwf

theorem ambientStep_stripLog (s : MobState) (w : TickEnv) :
    stripLog (ambientStep s w) = stripLog s := by
  rcases ambientStep_eq_or s w with he | he <;> rw [he] <;> rfl

theorem ambientStep_log (s : MobState) (w : TickEnv) :
    ∃ l, (ambientStep s w).log = s.log ++ l ∧
      l.any isExcludingBroadcast = false ∧ l.any isMoveTarget = false := by
  rcases ambientStep_eq_or s w with he | he <;> rw [he]
  · exact ⟨[], by simp, rfl, rfl⟩
  · exact ⟨[Ev.msgLocation (MsgKind.irregular (pyChoice s.irregular_msgs w.pickMsg 0))],
      rfl, rfl, rfl⟩

theorem removeEvs_any_false (s : MobState) (p : Ev → Bool)
    (hp : ∀ i hk, p (Ev.tickerRemove i hk) = false) :
    (removeEvs s).any p = false := by
  unfold removeEvs
  cases s.last_ticker_interval with
  | none => rfl
  | some li =>
    cases s.last_hook_key with
    | none => rfl
    | some lh =>
      dsimp only
      split_ifs
      · simp [hp]
      · rfl

theorem addEvs_any_false (st : Bool) (i : Option Nat) (h : Option Hook) (p : Ev → Bool)
    (hp : ∀ i2 hk, p (Ev.tickerAdd i2 hk) = false) :
    (addEvs st i h).any p = false := by
  unfold addEvs
  cases st <;> cases i <;> cases h <;> try rfl
  dsimp only
  split_ifs
  · simp [hp]
  · rfl

theorem find_first {α : Type} (p : α → Bool) (l1 l2 : List α) (e : α)
    (h1 : ∀ x, x ∈ l1 → p x = false) (he : p e = true) :
    (l1 ++ e :: l2).find? p = some e := by
  induction l1 with
  | nil => simp [List.find?_cons, he]
  | cons a as ih =>
    have ha : p a = false := h1 a (by simp)
    simp only [List.cons_append, List.find?_cons, ha]
    exact ih (fun x hx => h1 x (by simp [hx]))

theorem stripLog_addEv (x : MobState) (e : Ev) : stripLog (addEv x e) = stripLog x := rfl

/-- Claim C1, counterexample: immediately after `set_dead` fires on the
live default mob, the mob is Dormant yet still holds one live registered
timer (the respawn ticker with interval `death_pace = 90` bound to
`set_alive`), so a Dormant agent does not always have zero timers. -/
theorem C1_counterexample :
    mobOff.is_dead = true ∧ mobOff.tickers = [(90, Hook.set_alive)] ∧
    mobOff.tickers ≠ [] := by decide

/-- Claim C1 (amended): in every reachable state the mob holds at most
one live timer; a live mob holds exactly the timer of its behaviour
state (interval `patrolling_pace` bound to `do_patrol` while Patrolling,
interval `aggressive_pace` bound to `do_attack` while Attacking; the
Hunting state is unreachable because `db.hunting` is never set); a
Dormant mob holds either no timer (before its first activation) or
exactly one respawn timer with interval `death_pace` bound to
`set_alive` — not, as the claim states, no timer at all. -/
theorem C1_timer_invariant (home : Loc) (s : MobState) (hr : Reach home s) :
    s.tickers.length ≤ 1 ∧
    (s.is_dead = true →
      s.tickers = [] ∨ s.tickers = [(s.death_pace, Hook.set_alive)]) ∧
    (s.is_dead = false →
      (s.is_patrolling = true ∧ s.is_hunting = false ∧ s.is_attacking = false ∧
        s.tickers = [(s.patrolling_pace, Hook.do_patrol)]) ∨
      (s.is_attacking = true ∧ s.is_patrolling = false ∧ s.is_hunting = false ∧
        s.tickers = [(s.aggressive_pace, Hook.do_attack)])) := by
  obtain ⟨⟨h1, h2, h3, h4, h5, h6, h7, h8⟩, hcase⟩ := reach_inv home s hr
  rcases hcase with ⟨hd, -, hip, hih, hia, -, ⟨htk, -, -⟩ | ⟨htk, -, -⟩⟩ |
    ⟨hd, -, -, ⟨hip, hih, hia, htk, -, -⟩ | ⟨hip, hih, hia, htk, -, -⟩⟩
  · refine ⟨by rw [htk]; simp, fun _ => Or.inl htk, fun hf => ?_⟩
    rw [hd] at hf; cases hf
  · refine ⟨by rw [htk]; simp, fun _ => Or.inr (by rw [htk, h8]), fun hf => ?_⟩
    rw [hd] at hf; cases hf
  · refine ⟨by rw [htk]; simp, fun hf => ?_,
      fun _ => Or.inl ⟨hip, hih, hia, by rw [htk, h5]⟩⟩
    rw [hd] at hf; cases hf
  · refine ⟨by rw [htk]; simp, fun hf => ?_,
      fun _ => Or.inr ⟨hia, hip, hih, by rw [htk, h6]⟩⟩
    rw [hd] at hf; cases hf

/-- Witness for the amended claim C1, at the freshly created mob. -/
theorem C1_timer_invariant_witness :
    mob0.tickers.length ≤ 1 ∧
    (mob0.is_dead = true →
      mob0.tickers = [] ∨ mob0.tickers = [(mob0.death_pace, Hook.set_alive)]) ∧
    (mob0.is_dead = false →
      (mob0.is_patrolling = true ∧ mob0.is_hunting = false ∧ mob0.is_attacking = false ∧
        mob0.tickers = [(mob0.patrolling_pace, Hook.do_patrol)]) ∨
      (mob0.is_attacking = true ∧ mob0.is_patrolling = false ∧ mob0.is_hunting = false ∧
        mob0.tickers = [(mob0.aggressive_pace, Hook.do_attack)])) :=
  C1_timer_invariant 0 mob0 Reach.creation

/-- Claim C2, counterexample: deactivating the healthy live mob leaves
`db.health` at its previous value 25; the health attribute is retained,
not cleared or made undefined. -/
theorem C2_counterexample :
    mobOff.is_dead = true ∧ mobOff.health = some 25 ∧ mobOff.health ≠ none := by
  decide

/-- Claim C2 (amended): `set_dead` from any well-formed prior state
yields the Dormant state with the location cleared, all behaviour flags
cleared, the forced immortality flag set and the respawn ticker
recorded, while `db.health` keeps its previous value (the source never
clears it). -/
theorem C2_deactivate (s : MobState) (hwf : WFtickers s) :
    (set_dead s).is_dead = true ∧ (set_dead s).location = none ∧
    (set_dead s).health = s.health ∧ (set_dead s).is_patrolling = false ∧
    (set_dead s).is_hunting = false ∧ (set_dead s).is_attacking = false ∧
    (set_dead s).is_immortal = true ∧
    (set_dead s).last_ticker_interval = some s.death_pace ∧
    (set_dead s).last_hook_key = some Hook.set_alive ∧
    (set_dead s).tickers = tickersOf (some s.death_pace) (some Hook.set_alive) := by
  rw [set_dead_eq s hwf]
  exact ⟨rfl, rfl, rfl, rfl, rfl, rfl, rfl, rfl, rfl, rfl⟩

/-- Witness for the amended claim C2, at the live default mob. -/
theorem C2_deactivate_witness :
    (set_dead mobAlive).is_dead = true ∧ (set_dead mobAlive).location = none ∧
    (set_dead mobAlive).health = mobAlive.health ∧
    (set_dead mobAlive).is_patrolling = false ∧
    (set_dead mobAlive).is_hunting = false ∧ (set_dead mobAlive).is_attacking = false ∧
    (set_dead mobAlive).is_immortal = true ∧
    (set_dead mobAlive).last_ticker_interval = some mobAlive.death_pace ∧
    (set_dead mobAlive).last_hook_key = some Hook.set_alive ∧
    (set_dead mobAlive).tickers = tickersOf (some mobAlive.death_pace) (some Hook.set_alive) :=
  C2_deactivate mobAlive (by decide)

/-- Claim C3, counterexample: when the respawn of a dead, non
patrol-capable mob fires, the mob does not become Dormant: `set_alive`
unconditionally clears `db.is_dead`, leaving a live, idle mob whose
respawn ticker is still registered. -/
theorem C3_counterexample :
    c3base.patrolling = false ∧ c3dead.is_dead = true ∧
    c3res.is_dead = false ∧ c3res.is_patrolling = false ∧
    c3res.health = some 25 ∧ c3res.tickers = [(90, Hook.set_alive)] := by decide

/-- Claim C3 (amended): the respawn (`set_alive`) always restores
`health = full_health` and clears the dead flag; a patrol-capable mob
enters Patrolling with the patrol ticker recorded; a non patrol-capable
mob stays alive (not Dormant) and idle, its ticker state untouched, so
the previously installed respawn ticker remains. -/
theorem C3_reactivation (s : MobState) (hwf : WFtickers s) :
    (set_alive s).health = some s.full_health ∧ (set_alive s).is_dead = false ∧
    (s.patrolling = true →
      (set_alive s).is_patrolling = true ∧
      (set_alive s).last_ticker_interval = some s.patrolling_pace ∧
      (set_alive s).last_hook_key = some Hook.do_patrol) ∧
    (s.patrolling = false →
      (set_alive s).is_patrolling = false ∧
      (set_alive s).tickers = s.tickers ∧
      (set_alive s).last_ticker_interval = s.last_ticker_interval ∧
      (set_alive s).last_hook_key = s.last_hook_key) := by
  cases hp : s.patrolling with
  | true =>
    cases hl : s.location with
    | none =>
      rw [set_alive_eq_patrol_none s hwf hp hl]
      refine ⟨rfl, rfl, fun _ => ⟨rfl, rfl, rfl⟩, fun hf => ?_⟩
      cases hf
    | some loc =>
      rw [set_alive_eq_patrol_some s loc hwf hp hl]
      refine ⟨rfl, rfl, fun _ => ⟨rfl, rfl, rfl⟩, fun hf => ?_⟩
      cases hf
  | false =>
    cases hl : s.location with
    | none =>
      rw [set_alive_eq_nopatrol_none s hp hl]
      refine ⟨rfl, rfl, fun hf => ?_, fun _ => ⟨rfl, rfl, rfl, rfl⟩⟩
      cases hf
    | some loc =>
      rw [set_alive_eq_nopatrol_some s loc hp hl]
      refine ⟨rfl, rfl, fun hf => ?_, fun _ => ⟨rfl, rfl, rfl, rfl⟩⟩
      cases hf

/-- Witness for the amended claim C3, at the dead non patrol-capable mob. -/
theorem C3_reactivation_witness :
    (set_alive c3dead).health = some c3dead.full_health ∧
    (set_alive c3dead).is_dead = false ∧
    (c3dead.patrolling = true →
      (set_alive c3dead).is_patrolling = true ∧
      (set_alive c3dead).last_ticker_interval = some c3dead.patrolling_pace ∧
      (set_alive c3dead).last_hook_key = some Hook.do_patrol) ∧
    (c3dead.patrolling = false →
      (set_alive c3dead).is_patrolling = false ∧
      (set_alive c3dead).tickers = c3dead.tickers ∧
      (set_alive c3dead).last_ticker_interval = c3dead.last_ticker_interval ∧
      (set_alive c3dead).last_hook_key = c3dead.last_hook_key) :=
  C3_reactivation c3dead (by decide)

/-- Claim C4: a non-magic hit on a mortal live mob applies
`damage / damage_resistance`: the new health is
`health - damage / damage_resistance`; whenever the divided damage stays
below the current health the mob survives, and an aggressive survivor is
attacking afterwards.  At the spec scenario (health 25, resistance 100,
raw damage 50) the health becomes 24.5 (see the witness). -/
theorem C4_nonmagic_resistance (s : MobState) (q d : ℚ) (hwf : WFtickers s)
    (halive : s.is_dead = false) (hmortal : s.is_immortal = false)
    (hhealth : s.health = some q) (hdr : s.damage_resistance ≠ 0) :
    ∃ s', at_hit s false d = some s' ∧
      s'.health = some (q - d / s.damage_resistance) ∧
      (0 < q - d / s.damage_resistance →
        s'.is_dead = false ∧ (s.aggressive = true → s'.is_attacking = true)) := by
  unfold at_hit
  rw [hhealth]
  dsimp only
  have himm2 : (!s.is_immortal) = true := by simp [hmortal]
  rw [if_pos himm2, if_pos (show (!false) = true from rfl), if_neg hdr]
  dsimp only
  by_cases hk : q - d / s.damage_resistance ≤ 0
  · rw [if_pos hk]
    have hwf2 : WFtickers (addEv
        { addEv s (Ev.msgAttacker MsgKind.weapon_ineffective_msg) with
          health := some (q - d / s.damage_resistance) }
        (Ev.msgAttacker MsgKind.death_msg)) := hwf
    refine ⟨_, rfl, ?_, fun hpos => absurd hpos (not_lt.mpr hk)⟩
    rw [set_dead_eq _ hwf2]
    rfl
  · rw [if_neg hk]
    by_cases hagg : ((addEv s (Ev.msgAttacker MsgKind.weapon_ineffective_msg)).aggressive &&
        !(addEv s (Ev.msgAttacker MsgKind.weapon_ineffective_msg)).is_attacking) = true
    · rw [if_pos hagg]
      have hwf2 : WFtickers
          { addEv s (Ev.msgAttacker MsgKind.weapon_ineffective_msg) with
            health := some (q - d / s.damage_resistance) } := hwf
      have hagg2 : ({ addEv s (Ev.msgAttacker MsgKind.weapon_ineffective_msg) with
            health := some (q - d / s.damage_resistance) } : MobState).aggressive = true := by
        have h2 := hagg
        rw [Bool.and_eq_true] at h2
        exact h2.1
      refine ⟨_, rfl, ?_, fun _ => ⟨?_, fun _ => ?_⟩⟩
      · rw [start_attacking_eq _ hwf2 hagg2]
      · rw [start_attacking_eq _ hwf2 hagg2]
        exact halive
      · rw [start_attacking_eq _ hwf2 hagg2]
    · rw [if_neg hagg]
      refine ⟨_, rfl, rfl, fun _ => ⟨halive, fun ha2 => ?_⟩⟩
      show s.is_attacking = true
      by_cases hat : s.is_attacking = true
      · exact hat
      · have hat2 : s.is_attacking = false := by simpa using hat
        refine absurd ?_ hagg
        rw [Bool.and_eq_true]
        exact ⟨ha2, by rw [show (addEv s (Ev.msgAttacker
          MsgKind.weapon_ineffective_msg)).is_attacking = false from hat2]; rfl⟩

/-- Witness for claim C4, at the spec scenario: the live default mob
(health 25, damage resistance 100) hit with raw damage 50 by a non-magic
weapon ends at health 25 - 50 / 100 = 24.5 and is attacking. -/
theorem C4_nonmagic_resistance_witness :
    (∃ s', at_hit mobClean false 50 = some s' ∧
      s'.health = some ((25 : ℚ) - 50 / mobClean.damage_resistance) ∧
      (0 < (25 : ℚ) - 50 / mobClean.damage_resistance →
        s'.is_dead = false ∧ (mobClean.aggressive = true → s'.is_attacking = true))) ∧
    (25 : ℚ) - 50 / mobClean.damage_resistance = 49 / 2 :=
  ⟨C4_nonmagic_resistance mobClean 25 50 (by decide) (by decide) (by decide)
    (by decide) (by decide), by decide⟩

/-- Claim C5, counterexample: the magic-weapon kill (health 25, raw
damage 30) does drive the mob Dormant at health -5 and does notify the
attacker, but the room broadcast it emits is the plain hit
acknowledgment sent to everyone; no broadcast excluding the defeated
occupant is emitted on this path. -/
theorem C5_counterexample :
    (at_hit mobClean true 30).isSome = true ∧ c5res.is_dead = true ∧
    c5res.health = some (-5) ∧
    c5res.log.any isExcludingBroadcast = false ∧
    c5res.log = [Ev.msgLocation MsgKind.hit_msg, Ev.msgAttacker MsgKind.death_msg,
      Ev.tickerRemove 6 Hook.do_patrol, Ev.tickerAdd 90 Hook.set_alive] := by decide

/-- Claim C5 (amended): a magic-weapon hit that drives a mortal mob to
health below or equal to zero makes it Dormant, notifies the attacker
with the death message, and broadcasts the hit acknowledgment to the
room with no exclusion; no occupant-excluding defeat broadcast occurs
(that broadcast belongs to `do_attack`, where the mob defeats a player). -/
theorem C5_magic_kill (s : MobState) (q d : ℚ) (loc : Loc) (hwf : WFtickers s)
    (hmortal : s.is_immortal = false) (hhealth : s.health = some q)
    (hloc : s.location = some loc) (hkill : q - d ≤ 0) (hlog : s.log = []) :
    ∃ s', at_hit s true d = some s' ∧ s'.is_dead = true ∧ s'.health = some (q - d) ∧
      Ev.msgLocation MsgKind.hit_msg ∈ s'.log ∧
      Ev.msgAttacker MsgKind.death_msg ∈ s'.log ∧
      s'.log.any isExcludingBroadcast = false := by
  unfold at_hit
  rw [hhealth]
  dsimp only
  have himm2 : (!s.is_immortal) = true := by simp [hmortal]
  rw [if_pos himm2, if_neg (show ¬((!true) = true) from by simp), hloc]
  dsimp only
  rw [if_pos hkill]
  have hwf2 : WFtickers (addEv
      { addEv s (Ev.msgLocation MsgKind.hit_msg) with health := some (q - d) }
      (Ev.msgAttacker MsgKind.death_msg)) := hwf
  refine ⟨_, rfl, ?_, ?_, ?_, ?_, ?_⟩
  · rw [set_dead_eq _ hwf2]
  · rw [set_dead_eq _ hwf2]
    rfl
  · rw [set_dead_eq _ hwf2]
    simp [addEv]
  · rw [set_dead_eq _ hwf2]
    simp [addEv]
  · rw [set_dead_eq _ hwf2]
    simp only [addEv, hlog, List.any_append, List.nil_append]
    rw [removeEvs_any_false _ isExcludingBroadcast (fun _ _ => rfl),
        addEvs_any_false _ _ _ isExcludingBroadcast (fun _ _ => rfl)]
    rfl

/-- Witness for the amended claim C5, at the spec scenario (health 25,
magic raw damage 30, ending at health -5). -/
theorem C5_magic_kill_witness :
    ∃ s', at_hit mobClean true 30 = some s' ∧ s'.is_dead = true ∧
      s'.health = some ((25 : ℚ) - 30) ∧
      Ev.msgLocation MsgKind.hit_msg ∈ s'.log ∧
      Ev.msgAttacker MsgKind.death_msg ∈ s'.log ∧
      s'.log.any isExcludingBroadcast = false :=
  C5_magic_kill mobClean 25 30 0 (by decide) (by decide) (by decide) (by decide)
    (by decide) (by decide)

/-- Claim C6, counterexample: the tick handlers contain no Dormant
guard.  On the Dormant mob (location cleared by `set_dead`) every
behaviour tick faults on the missing location instead of observing the
Dormant state and no-oping; and a further hit on the already-Dormant mob
(health -5 retained) re-applies the death transition: the attacker is
notified of the death again and the respawn ticker is cancelled and
re-installed a second time. -/
theorem C6_counterexample :
    mobKilled.is_dead = true ∧
    do_patrol mobKilled envEmpty = none ∧
    do_hunt mobKilled envEmpty = none ∧
    do_attack mobKilled envEmpty = none ∧
    (at_hit mobKilled false 1).isSome = true ∧
    mobKilledTwice.is_dead = true ∧
    mobKilledTwice.log.drop mobKilled.log.length =
      [Ev.msgAttacker MsgKind.death_msg, Ev.tickerRemove 90 Hook.set_alive,
       Ev.tickerAdd 90 Hook.set_alive] := by decide

/-- Claim C6 (amended): in the sequential scheduler model no behaviour
tick can fire while Dormant, because `set_dead` replaces the behaviour
timer with the respawn timer, leaving `set_alive` as the only registered
callback; however the handlers themselves never check the Dormant state:
applied to a Dormant (location-cleared) mob each one faults rather than
no-ops, and `at_hit` on an already-Dormant mob with non-positive health
re-applies the death transition (see the counterexample). -/
theorem C6_dormant_ticks (s : MobState) (w : TickEnv) (hwf : WFtickers s) :
    ((set_dead s).tickers.all (fun t => t.2 == Hook.set_alive)) = true ∧
    (s.location = none →
      do_patrol s w = none ∧ do_hunt s w = none ∧ do_attack s w = none) := by
  constructor
  · rw [set_dead_eq s hwf]
    show (tickersOf (some s.death_pace) (some Hook.set_alive)).all _ = true
    unfold tickersOf
    dsimp only
    split_ifs
    · rfl
    · rfl
  · intro hl
    refine ⟨?_, ?_, ?_⟩
    · unfold do_patrol; rw [hl]
    · unfold do_hunt; rw [hl]
    · unfold do_attack; rw [hl]

/-- Witness for the amended claim C6, at the mob killed by the magic
weapon: its location is cleared, so all three tick handlers fault. -/
theorem C6_dormant_ticks_witness :
    ((set_dead mobKilled).tickers.all (fun t => t.2 == Hook.set_alive)) = true ∧
    (mobKilled.location = none →
      do_patrol mobKilled envEmpty = none ∧ do_hunt mobKilled envEmpty = none ∧
      do_attack mobKilled envEmpty = none) :=
  C6_dormant_ticks mobKilled envEmpty (by decide)

/-- Claim C7: on a hunt tick with no valid target in the current room,
the mob inspects the traversable exits in their enumeration order and
moves into the destination of the first exit whose room holds a valid
target, ignoring all later exits (first conjunct: any decomposition
exits = l1 ++ e :: l2 with no targets in l1 and a target at e moves to
e, whatever l2 holds); if no inspected destination holds a target it
falls back to patrolling (patrol-capable case); with no exits at all it
moves to its home room. -/
theorem C7_hunt_first_exit (s : MobState) (w : TickEnv) (loc : Loc) (hwf : WFtickers s)
    (hloc : s.location = some loc) (htgt : w.target = none) (hp : s.patrolling = true) :
    (∀ l1 l2 e, w.exits = l1 ++ e :: l2 →
      (∀ x, x ∈ l1 → x.hasTarget = false) → e.hasTarget = true →
      ∃ s', do_hunt s w = some s' ∧ s'.location = some e.destination) ∧
    (w.exits ≠ [] → (∀ x, x ∈ w.exits → x.hasTarget = false) →
      ∃ s', do_hunt s w = some s' ∧ s'.is_patrolling = true ∧
        s'.last_ticker_interval = some s.patrolling_pace ∧
        s'.last_hook_key = some Hook.do_patrol) ∧
    (w.exits = [] → ∃ s', do_hunt s w = some s' ∧ s'.location = some s.home) := by
  unfold do_hunt
  rw [hloc]
  dsimp only
  rw [htgt]
  simp only [Option.isSome_none, Bool.and_false]
  rw [if_neg Bool.false_ne_true]
  refine ⟨?_, ?_, ?_⟩
  · intro l1 l2 e hsplit hall he
    have hne : w.exits.isEmpty = false := by
      rw [hsplit]; cases l1 <;> rfl
    rw [if_neg (by rw [hne]; exact Bool.false_ne_true)]
    rw [hsplit, find_first _ l1 l2 e hall he]
    exact ⟨_, rfl, rfl⟩
  · intro hne hall
    have hne2 : w.exits.isEmpty = false := by
      cases hx : w.exits with
      | nil => exact absurd hx hne
      | cons a as => rfl
    rw [if_neg (by rw [hne2]; exact Bool.false_ne_true)]
    have hf : w.exits.find? (fun e => e.hasTarget) = none :=
      List.find?_eq_none.mpr (fun x hx => by rw [hall x hx]; exact Bool.false_ne_true)
    rw [hf]
    have hwfa : WFtickers (ambientStep s w) := ambientStep_wf s w hwf
    have hpa : (ambientStep s w).patrolling = true := by
      rw [ambientStep_patrolling]; exact hp
    rw [start_patrolling_eq _ hwfa hpa]
    refine ⟨_, rfl, rfl, ?_, rfl⟩
    show some (ambientStep s w).patrolling_pace = some s.patrolling_pace
    rw [ambientStep_patrolling_pace]
  · intro h0
    rw [if_pos (by rw [h0]; rfl)]
    refine ⟨_, rfl, ?_⟩
    show some (ambientStep s w).home = some s.home
    rw [ambientStep_home]

/-- Witness for claim C7: with exits to rooms 5 (no target), 7 (target)
and 9 (target), the hunting mob moves into room 7, ignoring room 9. -/
theorem C7_hunt_first_exit_witness :
    ∃ s', do_hunt mobClean huntEnv = some s' ∧
      s'.location = some (HuntExit.mk 7 true).destination :=
  (C7_hunt_first_exit mobClean huntEnv 0 (by decide) (by decide) (by decide)
      (by decide)).1
    [⟨5, false⟩] [⟨9, true⟩] ⟨7, true⟩ rfl (by decide) rfl

/-- Claim C8, counterexample: a second `set_dead` on the already-Dormant
mob leaves every agent field unchanged, but it performs one more
`TICKER_HANDLER.remove` (cancelling the live respawn ticker) followed by
a re-install, so a timer cancellation beyond the first deactivation does
occur. -/
theorem C8_counterexample :
    mobOff.is_dead = true ∧
    stripLog (set_dead mobOff) = stripLog mobOff ∧
    (set_dead mobOff).log.drop mobOff.log.length =
      [Ev.tickerRemove 90 Hook.set_alive, Ev.tickerAdd 90 Hook.set_alive] := by decide

/-- Claim C8 (amended): repeating `set_dead` is idempotent on the agent
state and on the registered timer set, but it is not free of timer
operations: each repetition cancels the existing respawn ticker and
immediately re-installs it. -/
theorem C8_repeat_deactivate (s : MobState) (hwf : WFtickers s) (hdp : s.death_pace ≠ 0) :
    stripLog (set_dead (set_dead s)) = stripLog (set_dead s) ∧
    (set_dead (set_dead s)).log =
      (set_dead s).log ++ [Ev.tickerRemove s.death_pace Hook.set_alive,
                           Ev.tickerAdd s.death_pace Hook.set_alive] := by
  obtain ⟨pat, agg, hun, imm, dead, dr, pp, ap, hup, dp, lti, lhk, fh, hel, irr, loc2, hom,
    ip, ia, ih, im2, tks, lg⟩ := s
  unfold WFtickers at hwf
  dsimp only at hwf hdp ⊢
  subst hwf
  cases lti with
  | none =>
    cases lhk <;>
      simp only [set_dead, set_ticker, addNew, removeLast, addEv, stripLog, tickersOf,
        tickerRemoveL, tickerAddL] <;>
      simp [hdp, List.filter]
  | some li =>
    cases lhk with
    | none =>
      simp only [set_dead, set_ticker, addNew, removeLast, addEv, stripLog, tickersOf,
        tickerRemoveL, tickerAddL]
      simp [hdp, List.filter]
    | some lh =>
      by_cases hli : li = 0 <;>
        simp only [set_dead, set_ticker, addNew, removeLast, addEv, stripLog, tickersOf,
          tickerRemoveL, tickerAddL] <;>
        simp [hdp, hli, List.filter]

/-- Witness for the amended claim C8, at the live default mob. -/
theorem C8_repeat_deactivate_witness :
    stripLog (set_dead (set_dead mobAlive)) = stripLog (set_dead mobAlive) ∧
    (set_dead (set_dead mobAlive)).log =
      (set_dead mobAlive).log ++ [Ev.tickerRemove mobAlive.death_pace Hook.set_alive,
                                  Ev.tickerAdd mobAlive.death_pace Hook.set_alive] :=
  C8_repeat_deactivate mobAlive (by decide) (by decide)

set_option maxHeartbeats 1600000 in
/-- Claim C9: when the mob defeats its target (post-attack health at or
below zero) and the configured fallback room name cannot be resolved,
`do_attack` completes without fault, logs the error instead of raising,
skips the relocation (no move event is emitted), and leaves every field
of the mob itself unchanged. -/
theorem C9_unresolved_defeat_location (s : MobState) (w : TickEnv) (loc : Loc)
    (t : TargetId) (hloc : s.location = some loc) (ht : w.target = some t)
    (hdefeat : w.targetHealthAfter ≤ 0) (hres : w.resolved = none) :
    ∃ s', do_attack s w = some s' ∧ stripLog s' = stripLog s ∧
      Ev.logErr ∈ s'.log ∧
      (s'.log.drop s.log.length).any isMoveTarget = false := by
  unfold do_attack
  rw [hloc]
  dsimp only
  rw [ht]
  dsimp only
  rw [if_pos hdefeat, hres]
  dsimp only
  refine ⟨_, rfl, ?_, ?_, ?_⟩
  · rw [stripLog_addEv, stripLog_addEv, stripLog_addEv, stripLog_addEv]
    exact ambientStep_stripLog s w
  · simp [addEv]
  · obtain ⟨l, hl, -, hmv⟩ := ambientStep_log s w
    simp only [addEv, hl, List.append_assoc, List.drop_left]
    simp [List.any_append, hmv, isMoveTarget]

/-- Witness for claim C9: the live default mob defeats target 3 while
the fallback room is unresolvable; the error is logged, no relocation
happens, and the mob is unchanged. -/
theorem C9_unresolved_defeat_location_witness :
    ∃ s', do_attack mobClean c9env = some s' ∧ stripLog s' = stripLog mobClean ∧
      Ev.logErr ∈ s'.log ∧
      (s'.log.drop mobClean.log.length).any isMoveTarget = false :=
  C9_unresolved_defeat_location mobClean c9env 0 3 (by decide) (by decide)
    (by decide) (by decide)

/-- Claim C10: a dead mob is effectively immortal: `set_dead` forces the
runtime immortality flag, `at_init` restores it after a reload whenever
`db.is_dead` is set (even when the configured `db.immortal` is false),
and any `at_hit` on a mob whose runtime immortality flag is set leaves
`db.health` unchanged — even though the health value itself is retained
from before death. -/
theorem C10_dead_immortality (s : MobState) (magic : Bool) (d : ℚ)
    (hwf : WFtickers s) :
    (set_dead s).is_immortal = true ∧
    (s.is_dead = true → (at_init s).is_immortal = true) ∧
    (s.is_immortal = true → ∃ s', at_hit s magic d = some s' ∧ s'.health = s.health) := by
  refine ⟨?_, ?_, ?_⟩
  · rw [set_dead_eq s hwf]
  · intro hd
    show (s.immortal || s.is_dead) = true
    rw [hd]
    exact Bool.or_true _
  · intro himm
    unfold at_hit
    cases hh : s.health with
    | none => exact ⟨_, rfl, hh⟩
    | some q =>
      dsimp only
      rw [if_neg (show ¬((!s.is_immortal) = true) from by simp [himm])]
      dsimp only
      by_cases hk : q ≤ 0
      · rw [if_pos hk]
        have hwf2 : WFtickers (addEv { s with health := some q }
            (Ev.msgAttacker MsgKind.death_msg)) := hwf
        refine ⟨_, rfl, ?_⟩
        rw [set_dead_eq _ hwf2]
        rfl
      · rw [if_neg hk]
        by_cases hagg : (s.aggressive && !s.is_attacking) = true
        · rw [if_pos hagg]
          have hwf2 : WFtickers ({ s with health := some q } : MobState) := hwf
          have hagg2 : ({ s with health := some q } : MobState).aggressive = true := by
            have h2 := hagg
            rw [Bool.and_eq_true] at h2
            exact h2.1
          refine ⟨_, rfl, ?_⟩
          rw [start_attacking_eq _ hwf2 hagg2]
        · rw [if_neg hagg]
          exact ⟨_, rfl, rfl⟩

/-- Witness for claim C10, at the mob killed in combat: its configured
immortal flag is false, yet having died it takes no further damage. -/
theorem C10_dead_immortality_witness :
    (set_dead mobKilled).is_immortal = true ∧
    (mobKilled.is_dead = true → (at_init mobKilled).is_immortal = true) ∧
    (mobKilled.is_immortal = true →
      ∃ s', at_hit mobKilled false 7 = some s' ∧ s'.health = mobKilled.health) :=
  C10_dead_immortality mobKilled false 7 (by decide)
